import Mathlib

/-!
# Verification of the barge-in detector / interrupt coordinator

Shallow embedding of the core logic of `src/02-voice/src/app/page.tsx`
(speech-presence detector, playback queue, turn/interrupt coordinator)
together with the configuration constants of
`src/02-voice/src/config/realtime.ts`.

Modelling conventions:
* Audio chunk payloads are abstracted to identifiers (`Chunk := Nat`);
  decoding of a `response.audio.delta` payload either yields a chunk or
  fails (`Payload.malformed`), matching the try/catch in `playAudioDelta`.
* Amplitudes and PCM sample values are rationals; the detector takes the
  already-computed mean absolute amplitude of a frame.
* Times are naturals (`Date.now()` milliseconds); the cooldown guard is
  computed in `Int` exactly as the JavaScript subtraction does.
* Each event handler of the source is one Lean function from state to
  state plus a list of observable actions (messages sent on the socket,
  chunks started, the detector trigger, log output).  Event sequences are
  folded by `runEvents`, the single-threaded cooperative scheduling model
  the code relies on: every callback runs to completion atomically.
* The suspension of `playAudioQueue` at `await source.onended` is modelled
  by the `chunkEnded c` event: the `onended` callback of source `c` firing
  and resuming the loop iteration that awaited `c`.  The resumed iteration
  always re-enters the while loop — clearing `currentAudioSourceRef` only
  when it still holds `c`, then starting the next queued chunk or, on an
  empty queue, clearing the playing flag — also when `c` is a stale source
  that `interrupt` stopped earlier (calling `stop()` on an
  `AudioBufferSourceNode` still fires `ended`).
* Besides the program's own variables, the state carries `sounding`, the
  audible sources of the audio hardware: a chunk joins it when its source
  is started and leaves it when `interrupt` stops it or its `ended`
  callback runs.  It is bookkeeping about the environment, not a variable
  of the program; it lets overlap of two sounding sources be stated.
-/

namespace Voice

/-- Audio chunk identifier (payload content abstracted). -/
abbrev Chunk := Nat

/-- Observable actions of the handlers: messages sent to the remote
session over the socket, a chunk starting to sound, the detector deciding
to call `interrupt()`, and the decode-failure log of `playAudioDelta`. -/
inductive Action where
  | responseCancel
  | outputBufferClear
  | detectorTrigger
  | started (c : Chunk)
  | audioAppend
  | logDecodeError
deriving DecidableEq, Repr

/-- The mutable state of `page.tsx`: the refs
(`audioQueueRef`, `isPlayingRef`, `isAssistantSpeakingRef`,
`currentAudioSourceRef`, `lastInterruptTimeRef`, `speechFramesRef`), the
socket's readyState, the React state mirrors that matter here
(`connected`, `isListening`, `error`), and `sounding`: the sources
currently audible on the audio hardware (environment bookkeeping, not a
program variable). -/
structure SysState where
  wsOpen : Bool
  connected : Bool
  isListening : Bool
  hasError : Bool
  audioQueue : List Chunk
  isPlaying : Bool
  isAssistantSpeaking : Bool
  currentSource : Option Chunk
  sounding : List Chunk
  lastInterruptTime : Nat
  speechFrames : Nat
deriving DecidableEq, Repr

/-- Threshold `REALTIME_CONFIG.bargeIn.speechThreshold` = 0.02. -/
def speechThreshold : ℚ := 2 / 100

/-- Frame requirement `REALTIME_CONFIG.bargeIn.consecutiveFrames` = 2. -/
def consecutiveFrames : Nat := 2

/-- The cooldown window: the literal `500` in `interrupt()`
(`REALTIME_CONFIG.bargeIn.cooldownMs` has the same value). -/
def cooldownMs : Nat := 500

/-- Mean absolute amplitude of a frame, as computed at the top of
`processor.onaudioprocess` (`sum of Math.abs over the frame, divided by
its length`). -/
def meanAbsAmplitude (frame : List ℚ) : ℚ :=
  (frame.map (fun x => |x|)).sum / (frame.length : ℚ)

/-- Silencing performed by `currentAudioSourceRef.current.stop()` in
`interrupt`: the current source, if there is one, stops sounding
immediately (its `ended` callback still fires later). -/
def stopCurrentSounding (s : SysState) : List Chunk :=
  match s.currentSource with
  | some c => s.sounding.erase c
  | none => s.sounding

/-- Handler `interrupt()` (page.tsx lines 254-293): if the socket is open and the
cooldown has elapsed, record the interrupt time, send `response.cancel`
and `output_audio_buffer.clear`, stop the current audio source, clear the
local queue, and reset the playing / assistant-speaking flags and the
voiced-frame counter; otherwise do nothing. -/
def interrupt (now : Nat) (s : SysState) : SysState × List Action :=
  if s.wsOpen then
    if (now : Int) - (s.lastInterruptTime : Int) < (cooldownMs : Int) then
      (s, [])
    else
      ({ s with lastInterruptTime := now,
                sounding := stopCurrentSounding s,
                currentSource := none,
                audioQueue := [],
                isPlaying := false,
                isAssistantSpeaking := false,
                speechFrames := 0 },
       [.responseCancel, .outputBufferClear])
  else (s, [])

/-- The detector part of `processor.onaudioprocess` (page.tsx lines
316-356), taking the frame's mean absolute amplitude: if the socket is
open, run the threshold / consecutive-frame logic (calling `interrupt`
when the counter reaches `consecutiveFrames`) and then send the PCM16
frame (`input_audio_buffer.append`). -/
def processFrame (now : Nat) (avg : ℚ) (s : SysState) : SysState × List Action :=
  if s.wsOpen then
    let r :=
      if s.isAssistantSpeaking then
        if avg > speechThreshold then
          let s' := { s with speechFrames := s.speechFrames + 1 }
          if s'.speechFrames ≥ consecutiveFrames then
            let r' := interrupt now s'
            (r'.1, Action.detectorTrigger :: r'.2)
          else (s', [])
        else
          if s.speechFrames > 0 then
            ({ s with speechFrames := s.speechFrames - 1 }, [])
          else (s, [])
      else ({ s with speechFrames := 0 }, [])
    (r.1, r.2 ++ [Action.audioAppend])
  else (s, [])

/-- A `response.audio.delta` payload: either it decodes to a chunk or the
base64/PCM decode throws. -/
inductive Payload where
  | good (c : Chunk)
  | malformed
deriving DecidableEq, Repr

/-- One iteration of the `playAudioQueue` loop (page.tsx lines 400-442):
if the queue is empty, clear the playing flag and return/exit; otherwise
shift the first chunk, store it in `currentAudioSourceRef`, and start it
— it begins to sound and the loop suspends awaiting its `onended`.  Used
both at loop entry (where the code sets `isPlayingRef.current = true`
before the while) and at each resumed iteration; the code's resumed
iteration does not write the flag, but whenever it pops the flag is
already `true` — a cleared flag implies an empty queue on every
reachable state (`runEvents_flag_clear_queue_empty`) — so the shared
`isPlaying := true` in the pop case agrees with the code there. -/
def playAudioQueueStep (s : SysState) : SysState × List Action :=
  match s.audioQueue with
  | [] => ({ s with isPlaying := false }, [])
  | c :: rest =>
      ({ s with isPlaying := true, audioQueue := rest, currentSource := some c,
                sounding := s.sounding ++ [c] },
       [.started c])

/-- Handler `playAudioDelta` (page.tsx lines 378-398): decode the payload; on
failure log and drop it; on success push the chunk and, if nothing is
playing, start the consume loop. -/
def playAudioDelta (p : Payload) (s : SysState) : SysState × List Action :=
  match p with
  | .malformed => (s, [.logDecodeError])
  | .good c =>
      let s1 := { s with audioQueue := s.audioQueue ++ [c] }
      if s1.isPlaying then (s1, []) else playAudioQueueStep s1

/-- The `response.audio.delta` branch of `ws.onmessage` (page.tsx lines
187-190): set `isAssistantSpeakingRef` to `true`, then `playAudioDelta`. -/
def onAudioDeltaMessage (p : Payload) (s : SysState) : SysState × List Action :=
  playAudioDelta p { s with isAssistantSpeaking := true }

/-- The `onended` callback of source `c` firing and resuming the loop
iteration that awaited `c` (the code after the `await` at page.tsx lines
431-441).  `c` is no longer audible (a natural end silences it here; a
source stopped by `interrupt` was silenced there — erasing again is a
no-op).  The resumed code clears `currentAudioSourceRef` only when it
still holds this very source, and then in every case re-enters the while
loop: it starts the next queued chunk, or on an empty queue exits and
clears the playing flag.  In particular a stale `ended` — fired for a
source that `interrupt` stopped — still resumes its loop and can clear
the playing flag while a newer source is sounding. -/
def onChunkEnded (c : Chunk) (s : SysState) : SysState × List Action :=
  let s1 := { s with sounding := s.sounding.erase c }
  if s1.currentSource = some c then
    playAudioQueueStep { s1 with currentSource := none }
  else
    playAudioQueueStep s1

/-- Handler `ws.onclose` (page.tsx lines 240-244): the socket is now closed and
the handler clears only the `connected` and `isListening` UI flags. -/
def onClose (s : SysState) : SysState × List Action :=
  ({ s with wsOpen := false, connected := false, isListening := false }, [])

/-- Handler `ws.onerror` (page.tsx lines 235-238): records an error message and
nothing else. -/
def onError (s : SysState) : SysState × List Action :=
  ({ s with hasError := true }, [])

/-- Events delivered to the handlers by the environment (socket messages,
microphone frames, playback completions, the manual interrupt button). -/
inductive Event where
  | frame (now : Nat) (avg : ℚ)
  | manualInterrupt (now : Nat)
  | audioDelta (p : Payload)
  | chunkEnded (c : Chunk)
  | responseCreated
  | responseDone
  | responseAudioDone
  | responseCancelled
  | speechStarted
  | wsClose
  | wsError
deriving DecidableEq, Repr

/-- Dispatch one event to its handler, exactly as `ws.onmessage`,
`processor.onaudioprocess`, the button and the audio callbacks do. -/
def step : Event → SysState → SysState × List Action
  | .frame now avg, s => processFrame now avg s
  | .manualInterrupt now, s => interrupt now s
  | .audioDelta p, s => onAudioDeltaMessage p s
  | .chunkEnded c, s => onChunkEnded c s
  | .responseCreated, s => ({ s with isAssistantSpeaking := true }, [])
  | .responseDone, s => ({ s with isAssistantSpeaking := false }, [])
  | .responseAudioDone, s => ({ s with isAssistantSpeaking := false }, [])
  | .responseCancelled, s => ({ s with isAssistantSpeaking := false }, [])
  | .speechStarted, s => ({ s with isListening := true }, [])
  | .wsClose, s => onClose s
  | .wsError, s => onError s

/-- Run a sequence of events, accumulating all observable actions in
order (single-threaded cooperative scheduling: each callback is atomic). -/
def runEvents : List Event → SysState → SysState × List Action
  | [], s => (s, [])
  | e :: rest, s =>
      let r := step e s
      let r' := runEvents rest r.1
      (r'.1, r.2 ++ r'.2)

/-- The state right after the connection is established (`ws.onopen`):
empty queue, nothing playing, counters zero (`lastInterruptTimeRef`
starts at `0`). -/
def initState : SysState :=
  { wsOpen := true, connected := true, isListening := true, hasError := false,
    audioQueue := [], isPlaying := false, isAssistantSpeaking := false,
    currentSource := none, sounding := [], lastInterruptTime := 0,
    speechFrames := 0 }

/-- The spec's `ConversationTurnState`, derived from the code's flags:
closed socket is `Idle`, otherwise the assistant-speaking flag separates
`AssistantTurn` from `UserTurn` (`Interrupting` is logically instantaneous
in the code and never stored). -/
inductive TurnState where
  | Idle
  | UserTurn
  | AssistantTurn
  | Interrupting
deriving DecidableEq, Repr

/-- View of a code state as a spec turn state. -/
def SysState.turnState (s : SysState) : TurnState :=
  if s.wsOpen = false then .Idle
  else if s.isAssistantSpeaking then .AssistantTurn
  else .UserTurn

/-- Run a list of (time, mean amplitude) microphone frames. -/
def runFrames (frames : List (Nat × ℚ)) (s : SysState) : SysState × List Action :=
  runEvents (frames.map fun p => Event.frame p.1 p.2) s

/-- The chunks that started sounding, in order, within an action trace. -/
def startedChunks (acts : List Action) : List Chunk :=
  acts.filterMap fun a =>
    match a with
    | .started c => some c
    | _ => none

/-- The decoded chunks delivered by one event: the payload of a decodable
`response.audio.delta`, nothing for every other event. -/
def deltaOfEvent (e : Event) : List Chunk :=
  match e with
  | .audioDelta (.good c) => [c]
  | _ => []

/-- The chunks delivered by `response.audio.delta` events that decode, in
arrival order. -/
def deltaChunks : List Event → List Chunk
  | [] => []
  | e :: evs => deltaOfEvent e ++ deltaChunks evs


/-! ## Helper lemmas and example states -/

/-- A state in mid `AssistantTurn`: assistant speaking, one voiced frame
already counted, no interrupt yet. -/
def speakingState : SysState :=
  { initState with isAssistantSpeaking := true, speechFrames := 1 }

theorem interrupt_wsOpen (now : Nat) (s : SysState) :
    (interrupt now s).1.wsOpen = s.wsOpen := by
  unfold interrupt
  split <;> [skip; rfl]
  split <;> rfl

theorem interrupt_accept (now : Nat) (s : SysState)
    (hopen : s.wsOpen = true)
    (hcool : ¬ ((now : Int) - (s.lastInterruptTime : Int) < (cooldownMs : Int))) :
    interrupt now s =
      ({ s with lastInterruptTime := now, sounding := stopCurrentSounding s,
                currentSource := none, audioQueue := [], isPlaying := false,
                isAssistantSpeaking := false, speechFrames := 0 },
       [Action.responseCancel, Action.outputBufferClear]) := by
  unfold interrupt
  rw [hopen]
  simp [hcool]

theorem interrupt_reject (now : Nat) (s : SysState)
    (hcool : (now : Int) - (s.lastInterruptTime : Int) < (cooldownMs : Int)) :
    interrupt now s = (s, []) := by
  unfold interrupt
  split
  · simp [hcool]
  · rfl

theorem processFrame_detector_accept (now : Nat) (avg : ℚ) (s : SysState)
    (hopen : s.wsOpen = true)
    (hcool : ¬ ((now : Int) - (s.lastInterruptTime : Int) < (cooldownMs : Int)))
    (hspeak : s.isAssistantSpeaking = true)
    (havg : avg > speechThreshold)
    (hcount : consecutiveFrames ≤ s.speechFrames + 1) :
    processFrame now avg s =
      ({ s with lastInterruptTime := now, sounding := stopCurrentSounding s,
                currentSource := none, audioQueue := [], isPlaying := false,
                isAssistantSpeaking := false, speechFrames := 0 },
       [Action.detectorTrigger, Action.responseCancel, Action.outputBufferClear,
        Action.audioAppend]) := by
  unfold processFrame
  rw [hopen, hspeak]
  simp only [if_true, havg, ge_iff_le, hcount, if_pos]
  simp [interrupt, hcool, stopCurrentSounding]

/-- C1: an interrupt request (detector trigger or manual) passing the
cooldown guard while the socket is open executes the full action
sequence: record the interrupt timestamp, send `response.cancel`, send
`output_audio_buffer.clear`, stop the current source (it ceases to
sound), clear the local queue, and reset the playing / assistant-speaking flags and the
voiced-frame counter; afterwards the playback queue is empty and not
playing.  First conjunct: the manual path (`interrupt`).  Second
conjunct: the detector path (`processFrame` reaching the consecutive-frame
count), which emits the trigger and runs the same sequence. -/
theorem interrupt_action_sequence_complete (s : SysState) (now : Nat) (avg : ℚ)
    (hopen : s.wsOpen = true)
    (hcool : ¬ ((now : Int) - (s.lastInterruptTime : Int) < (cooldownMs : Int))) :
    (interrupt now s =
      ({ s with lastInterruptTime := now, sounding := stopCurrentSounding s,
                currentSource := none, audioQueue := [], isPlaying := false,
                isAssistantSpeaking := false, speechFrames := 0 },
       [Action.responseCancel, Action.outputBufferClear])) ∧
    (s.isAssistantSpeaking = true → avg > speechThreshold →
      consecutiveFrames ≤ s.speechFrames + 1 →
      processFrame now avg s =
        ({ s with lastInterruptTime := now, sounding := stopCurrentSounding s,
                  currentSource := none, audioQueue := [], isPlaying := false,
                  isAssistantSpeaking := false, speechFrames := 0 },
         [Action.detectorTrigger, Action.responseCancel, Action.outputBufferClear,
          Action.audioAppend])) := by
  refine ⟨interrupt_accept now s hopen hcool, fun hspeak havg hcount => ?_⟩
  exact processFrame_detector_accept now avg s hopen hcool hspeak havg hcount

/-- Witness for C1 at a concrete state: assistant speaking, one voiced
frame counted, interrupt requested at t = 1000 ms with amplitude 0.03. -/
theorem interrupt_action_sequence_complete_witness :
    (interrupt 1000 speakingState =
      ({ speakingState with lastInterruptTime := 1000, currentSource := none,
                              audioQueue := [], isPlaying := false,
                              isAssistantSpeaking := false, speechFrames := 0 },
       [Action.responseCancel, Action.outputBufferClear])) ∧
    (processFrame 1000 (3 / 100) speakingState =
      ({ speakingState with lastInterruptTime := 1000, currentSource := none,
                              audioQueue := [], isPlaying := false,
                              isAssistantSpeaking := false, speechFrames := 0 },
       [Action.detectorTrigger, Action.responseCancel, Action.outputBufferClear,
        Action.audioAppend])) := by
  have h := interrupt_action_sequence_complete speakingState 1000 (3 / 100)
    (by decide) (by decide)
  exact ⟨h.1, h.2 (by decide) (by norm_num [speechThreshold]) (by decide)⟩

/-- C2: two interrupt requests less than `cooldownMs` apart, where the
first passes the guard (socket open, cooldown elapsed), execute exactly
one action sequence: the first sends exactly one `response.cancel` and
one `output_audio_buffer.clear`, the second sends nothing and leaves the
state unchanged (a no-op).  Both the manual button and the detector call
this same `interrupt` function, so this covers every pair of request
sources. -/
theorem cooldown_second_interrupt_noop (s : SysState) (t1 t2 : Nat)
    (hopen : s.wsOpen = true)
    (hfirst : ¬ ((t1 : Int) - (s.lastInterruptTime : Int) < (cooldownMs : Int)))
    (hpair : (t2 : Int) - (t1 : Int) < (cooldownMs : Int)) :
    (interrupt t1 s).2 = [Action.responseCancel, Action.outputBufferClear] ∧
    (interrupt t2 (interrupt t1 s).1).2 = [] ∧
    (interrupt t2 (interrupt t1 s).1).1 = (interrupt t1 s).1 ∧
    ((interrupt t1 s).2 ++ (interrupt t2 (interrupt t1 s).1).2).count
      Action.responseCancel = 1 ∧
    ((interrupt t1 s).2 ++ (interrupt t2 (interrupt t1 s).1).2).count
      Action.outputBufferClear = 1 := by
  rw [interrupt_accept t1 s hopen hfirst]
  have h2 : interrupt t2
      ({ s with lastInterruptTime := t1, sounding := stopCurrentSounding s,
                currentSource := none, audioQueue := [], isPlaying := false,
                isAssistantSpeaking := false, speechFrames := 0 },
       [Action.responseCancel, Action.outputBufferClear]).1 =
      (({ s with lastInterruptTime := t1, sounding := stopCurrentSounding s,
                 currentSource := none, audioQueue := [], isPlaying := false,
                 isAssistantSpeaking := false, speechFrames := 0 } :
        SysState), ([] : List Action)) :=
    interrupt_reject t2 _ (by simpa using hpair)
  rw [h2]
  refine ⟨rfl, rfl, rfl, ?_, ?_⟩ <;> rfl

/-- Witness for C2: end-to-end scenario 3 — two manual interrupts 100 ms
apart (t = 1000 and t = 1100) with cooldown 500 ms, starting from a state
whose last interrupt was at time 0. -/
theorem cooldown_second_interrupt_noop_witness :
    (interrupt 1000 speakingState).2 =
      [Action.responseCancel, Action.outputBufferClear] ∧
    (interrupt 1100 (interrupt 1000 speakingState).1).2 = [] ∧
    (interrupt 1100 (interrupt 1000 speakingState).1).1 =
      (interrupt 1000 speakingState).1 ∧
    ((interrupt 1000 speakingState).2 ++
      (interrupt 1100 (interrupt 1000 speakingState).1).2).count
        Action.responseCancel = 1 ∧
    ((interrupt 1000 speakingState).2 ++
      (interrupt 1100 (interrupt 1000 speakingState).1).2).count
        Action.outputBufferClear = 1 :=
  cooldown_second_interrupt_noop speakingState 1000 1100 (by decide) (by decide)
    (by decide)

theorem interrupt_no_trigger (now : Nat) (s : SysState) :
    Action.detectorTrigger ∉ (interrupt now s).2 := by
  unfold interrupt
  split
  · split <;> simp
  · simp

theorem processFrame_below_no_trigger (now : Nat) (avg : ℚ) (s : SysState)
    (h : avg < speechThreshold) :
    Action.detectorTrigger ∉ (processFrame now avg s).2 := by
  have h' : ¬ (avg > speechThreshold) := not_lt.mpr (le_of_lt h)
  cases hws : s.wsOpen <;> cases hsp : s.isAssistantSpeaking <;>
    simp [processFrame, hws, hsp, h'] <;> split <;> simp

theorem processFrame_zero_count_no_trigger (now : Nat) (avg : ℚ) (s : SysState)
    (h0 : s.speechFrames = 0) :
    Action.detectorTrigger ∉ (processFrame now avg s).2 := by
  cases hws : s.wsOpen <;> cases hsp : s.isAssistantSpeaking <;>
    simp [processFrame, hws, hsp, h0, consecutiveFrames] <;> split <;> simp

theorem processFrame_voiced_below_count (now : Nat) (avg : ℚ) (s : SysState)
    (hopen : s.wsOpen = true) (hspeak : s.isAssistantSpeaking = true)
    (havg : avg > speechThreshold) (hcount : s.speechFrames + 1 < consecutiveFrames) :
    processFrame now avg s =
      ({ s with speechFrames := s.speechFrames + 1 }, [Action.audioAppend]) := by
  unfold processFrame
  rw [hopen, hspeak]
  simp [havg, Nat.not_le.mpr hcount]

theorem processFrame_voiced_trigger (now : Nat) (avg : ℚ) (s : SysState)
    (hopen : s.wsOpen = true) (hspeak : s.isAssistantSpeaking = true)
    (havg : avg > speechThreshold) (hcount : consecutiveFrames ≤ s.speechFrames + 1) :
    processFrame now avg s =
      ((interrupt now { s with speechFrames := s.speechFrames + 1 }).1,
       Action.detectorTrigger ::
         ((interrupt now { s with speechFrames := s.speechFrames + 1 }).2 ++
           [Action.audioAppend])) := by
  unfold processFrame
  rw [hopen, hspeak]
  simp [havg, ge_iff_le, hcount]

theorem runFrames_cons (p : Nat × ℚ) (rest : List (Nat × ℚ)) (s : SysState) :
    runFrames (p :: rest) s =
      ((runFrames rest (processFrame p.1 p.2 s).1).1,
       (processFrame p.1 p.2 s).2 ++ (runFrames rest (processFrame p.1 p.2 s).1).2) := by
  simp [runFrames, runEvents, step]

theorem runFrames_below_no_trigger (frames : List (Nat × ℚ)) (s : SysState)
    (h : ∀ p ∈ frames, p.2 < speechThreshold) :
    Action.detectorTrigger ∉ (runFrames frames s).2 := by
  induction frames generalizing s with
  | nil => simp [runFrames, runEvents]
  | cons p rest ih =>
      rw [runFrames_cons]
      simp only [List.mem_append, not_or]
      exact ⟨processFrame_below_no_trigger p.1 p.2 s (h p (List.mem_cons_self p rest)),
        ih _ fun q hq => h q (List.mem_cons_of_mem p hq)⟩

/-- The assistant is speaking but no voiced frame has been counted yet. -/
def assistantTurnStart : SysState := { initState with isAssistantSpeaking := true }

/-- C3 (with `consecutiveFrames = 2`): (1) for every sequence of frames
whose mean amplitudes are all below `speechThreshold` the detector never
emits a trigger, regardless of the state; (2) a single above-threshold
frame followed by a below-threshold frame never emits a trigger (from a
detector at rest, counter 0); (3) two consecutive above-threshold frames
while the assistant is speaking on an open socket emit exactly one
trigger. -/
theorem detector_hysteresis_consecutive_frames :
    (∀ (frames : List (Nat × ℚ)) (s : SysState),
      (∀ p ∈ frames, p.2 < speechThreshold) →
      Action.detectorTrigger ∉ (runFrames frames s).2) ∧
    (∀ (t1 t2 : Nat) (a1 a2 : ℚ) (s : SysState),
      s.speechFrames = 0 → a1 > speechThreshold → a2 < speechThreshold →
      Action.detectorTrigger ∉ (runFrames [(t1, a1), (t2, a2)] s).2) ∧
    (∀ (t1 t2 : Nat) (a1 a2 : ℚ) (s : SysState),
      s.speechFrames = 0 → s.wsOpen = true → s.isAssistantSpeaking = true →
      a1 > speechThreshold → a2 > speechThreshold →
      (runFrames [(t1, a1), (t2, a2)] s).2.count Action.detectorTrigger = 1) := by
  refine ⟨runFrames_below_no_trigger, fun t1 t2 a1 a2 s h0 ha1 ha2 => ?_,
    fun t1 t2 a1 a2 s h0 hopen hspeak ha1 ha2 => ?_⟩
  · rw [runFrames_cons]
    simp only [List.mem_append, not_or]
    refine ⟨processFrame_zero_count_no_trigger t1 a1 s h0, ?_⟩
    rw [runFrames_cons]
    simp only [List.mem_append, not_or]
    exact ⟨processFrame_below_no_trigger t2 a2 _ ha2,
      by simp [runFrames, runEvents]⟩
  · have hlt : s.speechFrames + 1 < consecutiveFrames := by
      rw [h0]; decide
    rw [runFrames_cons, processFrame_voiced_below_count t1 a1 s hopen hspeak ha1 hlt]
    rw [runFrames_cons]
    have hcnt : consecutiveFrames ≤
        ({ s with speechFrames := s.speechFrames + 1 } : SysState).speechFrames + 1 := by
      simp [h0, consecutiveFrames]
    rw [processFrame_voiced_trigger t2 a2 _ (by simp [hopen]) (by simp [hspeak]) ha2 hcnt]
    simp [runFrames, runEvents, List.count_append, List.count_cons,
      List.count_eq_zero.mpr (interrupt_no_trigger t2 _)]

/-- Witness for C3: (1) one silent frame (amplitude 0.01) from an
arbitrary speaking state; (2) amplitude sequence 0.03 then 0.01 from a
detector at rest; (3) end-to-end amplitude sequence 0.03, 0.03 while the
assistant is speaking — exactly one trigger. -/
theorem detector_hysteresis_consecutive_frames_witness :
    Action.detectorTrigger ∉ (runFrames [(0, 1 / 100)] speakingState).2 ∧
    Action.detectorTrigger ∉
      (runFrames [(100, 3 / 100), (200, 1 / 100)] assistantTurnStart).2 ∧
    (runFrames [(100, 3 / 100), (200, 3 / 100)] assistantTurnStart).2.count
      Action.detectorTrigger = 1 := by
  have h := detector_hysteresis_consecutive_frames
  refine ⟨h.1 [(0, 1 / 100)] speakingState ?_, h.2.1 100 200 (3 / 100) (1 / 100)
    assistantTurnStart rfl ?_ ?_, h.2.2 100 200 (3 / 100) (3 / 100)
    assistantTurnStart rfl rfl rfl ?_ ?_⟩ <;>
    simp [speechThreshold] <;> norm_num

/-- C4: while the turn state is not `AssistantTurn` (so `Idle`,
`UserTurn`, or the logically instantaneous `Interrupting`), a microphone
frame never emits a trigger, whatever its amplitude; and whenever the
frame is actually processed (the handler body runs only on an open
socket), the consecutive-voiced-frame counter is reset to 0. -/
theorem detector_dormant_outside_assistant_turn (s : SysState) (now : Nat) (avg : ℚ)
    (h : s.turnState ≠ TurnState.AssistantTurn) :
    Action.detectorTrigger ∉ (processFrame now avg s).2 ∧
    (s.wsOpen = true → (processFrame now avg s).1.speechFrames = 0) := by
  cases hws : s.wsOpen with
  | false =>
      refine ⟨by simp [processFrame, hws], fun hw => ?_⟩
      simp [hws] at hw
  | true =>
      cases hsp : s.isAssistantSpeaking with
      | true =>
          exact absurd (by simp [SysState.turnState, hws, hsp]) h
      | false =>
          exact ⟨by simp [processFrame, hws, hsp],
            fun _ => by simp [processFrame, hws, hsp]⟩

/-- Witness for C4: a `UserTurn` state with a stale counter of 5 and a
very loud frame (amplitude 0.9): no trigger, counter reset to 0. -/
theorem detector_dormant_outside_assistant_turn_witness :
    ({ initState with speechFrames := 5 } : SysState).turnState ≠
      TurnState.AssistantTurn ∧
    Action.detectorTrigger ∉
      (processFrame 100 (9 / 10) { initState with speechFrames := 5 }).2 ∧
    (processFrame 100 (9 / 10) { initState with speechFrames := 5 }).1.speechFrames
      = 0 := by
  have h := detector_dormant_outside_assistant_turn
    { initState with speechFrames := 5 } 100 (9 / 10) (by decide)
  exact ⟨by decide, h.1, h.2 rfl⟩

/-- An `AssistantTurn` state whose last executed interrupt was at
t = 1000 ms and whose counter already holds one voiced frame. -/
def rejectedTriggerState : SysState :=
  { initState with isAssistantSpeaking := true, speechFrames := 1,
                   lastInterruptTime := 1000 }

/-- Counterexample to C5 as stated: at t = 1100 ms (within the 500 ms
cooldown of the last interrupt at t = 1000 ms) a 0.03-amplitude frame
brings the counter to `consecutiveFrames`; the detector emits the trigger
and calls `interrupt`, which rejects it on the cooldown guard and returns
before the `speechFramesRef.current = 0` line — so the counter stays at
its incremented value 2 instead of being reset to 0. -/
theorem trigger_reset_counterexample :
    processFrame 1100 (3 / 100) rejectedTriggerState =
      ({ rejectedTriggerState with speechFrames := 2 },
       [Action.detectorTrigger, Action.audioAppend]) ∧
    (processFrame 1100 (3 / 100) rejectedTriggerState).1.speechFrames = 2 := by
  have h := processFrame_voiced_trigger 1100 (3 / 100) rejectedTriggerState rfl rfl
    (by norm_num [speechThreshold]) (by decide)
  rw [h, interrupt_reject 1100 _ (by decide)]
  exact ⟨rfl, rfl⟩

/-- C5 amended: whenever the count reaches `consecutiveFrames` during an
above-threshold frame (socket open, assistant speaking), the detector
emits a trigger; the count is reset to 0 exactly when the coordinator
accepts the trigger (cooldown elapsed), and keeps its incremented value
when the cooldown rejects it. -/
theorem trigger_reset_on_accept_only (s : SysState) (now : Nat) (avg : ℚ)
    (hopen : s.wsOpen = true) (hspeak : s.isAssistantSpeaking = true)
    (havg : avg > speechThreshold) (hcount : consecutiveFrames ≤ s.speechFrames + 1) :
    Action.detectorTrigger ∈ (processFrame now avg s).2 ∧
    (¬ ((now : Int) - (s.lastInterruptTime : Int) < (cooldownMs : Int)) →
      (processFrame now avg s).1.speechFrames = 0) ∧
    (((now : Int) - (s.lastInterruptTime : Int) < (cooldownMs : Int)) →
      (processFrame now avg s).1.speechFrames = s.speechFrames + 1) := by
  rw [processFrame_voiced_trigger now avg s hopen hspeak havg hcount]
  refine ⟨by simp, fun hc => ?_, fun hc => ?_⟩
  · rw [interrupt_accept now _ (by simp [hopen]) (by simpa using hc)]
  · rw [interrupt_reject now _ (by simpa using hc)]

/-- Witness for the amended C5: at t = 2000 ms (cooldown elapsed since
t = 1000 ms) the same frame triggers and the counter is reset; at
t = 1100 ms it triggers and the counter stays at 2. -/
theorem trigger_reset_on_accept_only_witness :
    Action.detectorTrigger ∈ (processFrame 2000 (3 / 100) rejectedTriggerState).2 ∧
    (processFrame 2000 (3 / 100) rejectedTriggerState).1.speechFrames = 0 ∧
    Action.detectorTrigger ∈ (processFrame 1100 (3 / 100) rejectedTriggerState).2 ∧
    (processFrame 1100 (3 / 100) rejectedTriggerState).1.speechFrames = 2 := by
  have hacc := trigger_reset_on_accept_only rejectedTriggerState 2000 (3 / 100)
    rfl rfl (by norm_num [speechThreshold]) (by decide)
  have hrej := trigger_reset_on_accept_only rejectedTriggerState 1100 (3 / 100)
    rfl rfl (by norm_num [speechThreshold]) (by decide)
  exact ⟨hacc.1, hacc.2.1 (by decide), hrej.1, hrej.2.2 (by decide)⟩

/-! ## Playback-queue ordering infrastructure  -/

theorem startedChunks_append (a b : List Action) :
    startedChunks (a ++ b) = startedChunks a ++ startedChunks b :=
  List.filterMap_append a b _

theorem runEvents_cons (e : Event) (evs : List Event) (s : SysState) :
    runEvents (e :: evs) s =
      ((runEvents evs (step e s).1).1,
       (step e s).2 ++ (runEvents evs (step e s).1).2) := by
  simp [runEvents]

theorem interrupt_order (now : Nat) (s : SysState) :
    startedChunks (interrupt now s).2 = [] ∧
    List.Sublist (interrupt now s).1.audioQueue s.audioQueue := by
  unfold interrupt
  split
  · split
    · exact ⟨rfl, List.Sublist.refl _⟩
    · exact ⟨rfl, List.nil_sublist _⟩
  · exact ⟨rfl, List.Sublist.refl _⟩

theorem processFrame_order (now : Nat) (avg : ℚ) (s : SysState) :
    startedChunks (processFrame now avg s).2 = [] ∧
    List.Sublist (processFrame now avg s).1.audioQueue s.audioQueue := by
  unfold processFrame
  split
  · dsimp only
    split
    · split
      · split
        · have h := interrupt_order now { s with speechFrames := s.speechFrames + 1 }
          simpa [startedChunks_append, startedChunks] using h
        · exact ⟨rfl, List.Sublist.refl _⟩
      · split
        · exact ⟨rfl, List.Sublist.refl _⟩
        · exact ⟨rfl, List.Sublist.refl _⟩
    · exact ⟨rfl, List.Sublist.refl _⟩
  · exact ⟨rfl, List.Sublist.refl _⟩

theorem playAudioQueueStep_order (s : SysState) :
    startedChunks (playAudioQueueStep s).2 ++ (playAudioQueueStep s).1.audioQueue
      = s.audioQueue := by
  cases h : s.audioQueue with
  | nil => simp [playAudioQueueStep, h, startedChunks]
  | cons c rest => simp [playAudioQueueStep, h, startedChunks]

theorem playAudioDelta_order (p : Payload) (s : SysState) :
    startedChunks (playAudioDelta p s).2 ++ (playAudioDelta p s).1.audioQueue
      = s.audioQueue ++ deltaOfEvent (Event.audioDelta p) := by
  cases p with
  | malformed => simp [playAudioDelta, deltaOfEvent, startedChunks]
  | good c =>
      unfold playAudioDelta
      dsimp only
      split
      · simp [deltaOfEvent, startedChunks]
      · rw [playAudioQueueStep_order]
        simp [deltaOfEvent]

theorem onChunkEnded_order (c : Chunk) (s : SysState) :
    startedChunks (onChunkEnded c s).2 ++ (onChunkEnded c s).1.audioQueue
      = s.audioQueue := by
  unfold onChunkEnded
  dsimp only
  split
  · rw [playAudioQueueStep_order]
  · rw [playAudioQueueStep_order]

/-- Each handler invocation starts only chunks that were already queued
or delivered by this very event, keeping order: the started chunks
followed by the remaining queue form a sublist of the old queue followed
by this event's delivery. -/
theorem step_order (e : Event) (s : SysState) :
    List.Sublist (startedChunks (step e s).2 ++ (step e s).1.audioQueue)
      (s.audioQueue ++ deltaOfEvent e) := by
  cases e with
  | frame now avg =>
      have h := processFrame_order now avg s
      simp only [step, deltaOfEvent, List.append_nil, h.1, List.nil_append]
      exact h.2
  | manualInterrupt now =>
      have h := interrupt_order now s
      simp only [step, deltaOfEvent, List.append_nil, h.1, List.nil_append]
      exact h.2
  | audioDelta p =>
      have h := playAudioDelta_order p { s with isAssistantSpeaking := true }
      simp only [step, onAudioDeltaMessage]
      rw [h]
  | chunkEnded c =>
      have h := onChunkEnded_order c s
      simp only [step, deltaOfEvent, List.append_nil]
      rw [h]
  | responseCreated => simp [step, deltaOfEvent, startedChunks]
  | responseDone => simp [step, deltaOfEvent, startedChunks]
  | responseAudioDone => simp [step, deltaOfEvent, startedChunks]
  | responseCancelled => simp [step, deltaOfEvent, startedChunks]
  | speechStarted => simp [step, deltaOfEvent, startedChunks]
  | wsClose => simp [step, onClose, deltaOfEvent, startedChunks]
  | wsError => simp [step, onError, deltaOfEvent, startedChunks]

/-- Across any event sequence, the chunks that started sounding followed
by the still-pending queue form a sublist of the starting queue followed
by the chunks delivered during the sequence. -/
theorem runEvents_order (evs : List Event) (s : SysState) :
    List.Sublist
      (startedChunks (runEvents evs s).2 ++ (runEvents evs s).1.audioQueue)
      (s.audioQueue ++ deltaChunks evs) := by
  induction evs generalizing s with
  | nil => simp [runEvents, startedChunks, deltaChunks]
  | cons e evs ih =>
      rw [runEvents_cons]
      have h1 : List.Sublist
          (startedChunks (step e s).2 ++
            (startedChunks (runEvents evs (step e s).1).2 ++
              (runEvents evs (step e s).1).1.audioQueue))
          (startedChunks (step e s).2 ++
            ((step e s).1.audioQueue ++ deltaChunks evs)) :=
        List.Sublist.append_left (ih (step e s).1) _
      have h2 : List.Sublist
          (startedChunks (step e s).2 ++
            ((step e s).1.audioQueue ++ deltaChunks evs))
          (s.audioQueue ++ (deltaOfEvent e ++ deltaChunks evs)) := by
        rw [← List.append_assoc, ← List.append_assoc]
        exact List.Sublist.append (step_order e s) (List.Sublist.refl _)
      have hgoal := h1.trans h2
      simpa [startedChunks_append, List.append_assoc, deltaChunks] using hgoal

theorem not_started_of_not_queued (evs : List Event) (s : SysState) (c : Chunk)
    (hq : c ∉ s.audioQueue) (hd : c ∉ deltaChunks evs) :
    c ∉ startedChunks (runEvents evs s).2 := by
  intro hc
  have h := runEvents_order evs s
  have hmem : c ∈ s.audioQueue ++ deltaChunks evs :=
    List.Sublist.mem (List.mem_append_left _ hc) h
  rcases List.mem_append.mp hmem with h1 | h2
  · exact hq h1
  · exact hd h2

theorem playAudioQueueStep_queue_flag (s : SysState) :
    (playAudioQueueStep s).1.isPlaying = false →
      (playAudioQueueStep s).1.audioQueue = [] := by
  cases hq : s.audioQueue with
  | nil => intro _; simp [playAudioQueueStep, hq]
  | cons c rest => intro hp; simp [playAudioQueueStep, hq] at hp

theorem interrupt_queue_flag (now : Nat) (s : SysState)
    (h : s.isPlaying = false → s.audioQueue = []) :
    (interrupt now s).1.isPlaying = false →
      (interrupt now s).1.audioQueue = [] := by
  unfold interrupt
  split
  · split
    · exact h
    · intro _; rfl
  · exact h

theorem processFrame_queue_flag (now : Nat) (avg : ℚ) (s : SysState)
    (h : s.isPlaying = false → s.audioQueue = []) :
    (processFrame now avg s).1.isPlaying = false →
      (processFrame now avg s).1.audioQueue = [] := by
  unfold processFrame
  split
  · dsimp only
    split
    · split
      · split
        · exact interrupt_queue_flag now { s with speechFrames := s.speechFrames + 1 } h
        · exact h
      · split
        · exact h
        · exact h
    · exact h
  · exact h

theorem step_queue_flag (e : Event) (s : SysState)
    (h : s.isPlaying = false → s.audioQueue = []) :
    (step e s).1.isPlaying = false → (step e s).1.audioQueue = [] := by
  cases e with
  | frame now avg => exact processFrame_queue_flag now avg s h
  | manualInterrupt now => exact interrupt_queue_flag now s h
  | audioDelta p =>
      cases p with
      | malformed => exact h
      | good c =>
          simp only [step, onAudioDeltaMessage, playAudioDelta]
          split
          · rename_i hp
            intro hfalse
            simp [hp] at hfalse
          · exact playAudioQueueStep_queue_flag _
  | chunkEnded c =>
      simp only [step, onChunkEnded]
      split
      · exact playAudioQueueStep_queue_flag _
      · exact playAudioQueueStep_queue_flag _
  | responseCreated => exact h
  | responseDone => exact h
  | responseAudioDone => exact h
  | responseCancelled => exact h
  | speechStarted => exact h
  | wsClose => exact h
  | wsError => exact h

/-- On every reachable state, a cleared playing flag implies an empty
queue; this is why the shared pop case of `playAudioQueueStep` writing
`isPlaying := true` agrees with the code's resumed loop iteration, which
only pops when the flag is already set. -/
theorem runEvents_flag_clear_queue_empty (evs : List Event) (s : SysState)
    (h : s.isPlaying = false → s.audioQueue = []) :
    (runEvents evs s).1.isPlaying = false →
      (runEvents evs s).1.audioQueue = [] := by
  induction evs generalizing s with
  | nil => exact h
  | cons e evs ih =>
      rw [runEvents_cons]
      exact ih (step e s).1 (step_queue_flag e s h)

/-- End-to-end scenario: chunks A = 0, B = 1, C = 2 are delivered (A
starts playing immediately), then a manual interrupt at t = 1000 ms stops
A and clears the queue. -/
def abcScenario : List Event :=
  [.audioDelta (.good 0), .audioDelta (.good 1), .audioDelta (.good 2),
   .manualInterrupt 1000]

/-- The race the code permits: A starts; an interrupt stops A (A's
`ended` not yet delivered); trailing chunk B arrives, sees the cleared
playing flag and starts a second loop; A's stale `ended` then fires — its
loop resumes, finds the queue empty and clears the playing flag while B
is still sounding; chunk C arrives next, sees the cleared flag and starts
a third loop while B still sounds. -/
def overlapScenario : List Event :=
  [.audioDelta (.good 0), .manualInterrupt 1000, .audioDelta (.good 1),
   .chunkEnded 0, .audioDelta (.good 2)]

/-- Counterexample to C6 as stated: the at-most-one-chunk-playing
guarantee fails.  After the first four events of `overlapScenario` the
playing flag is clear while source B = 1 is still sounding (the stale
resumption of A's loop cleared it); the fifth event then starts C = 2,
leaving two chunks audible at once (`sounding = [1, 2]`). -/
theorem playback_overlap_counterexample :
    (runEvents (List.take 4 overlapScenario) initState).1.isPlaying = false ∧
    (runEvents (List.take 4 overlapScenario) initState).1.currentSource = some 1 ∧
    (runEvents (List.take 4 overlapScenario) initState).1.sounding = [1] ∧
    (runEvents overlapScenario initState).1.sounding = [1, 2] := by
  exact ⟨by decide, by decide, by decide, by decide⟩

/-- C6 amended: chunks start strictly in arrival order — over any event
sequence from the fresh connection state, the started chunks form a
sublist of the delivered chunks — and in the A,B,C scenario the interrupt
after A starts leaves the queue empty, nothing playing and nothing
sounding, and B and C never start in any continuation that does not
redeliver them; no at-most-one-playing guarantee is made (the stale-loop
race of `playback_overlap_counterexample` can leave the playing flag
clear while a source still sounds and then overlap two sources). -/
theorem playback_order_and_no_restart :
    (∀ evs : List Event,
      List.Sublist (startedChunks (runEvents evs initState).2) (deltaChunks evs)) ∧
    (startedChunks (runEvents abcScenario initState).2 = [0] ∧
     (runEvents abcScenario initState).1.audioQueue = [] ∧
     (runEvents abcScenario initState).1.isPlaying = false ∧
     (runEvents abcScenario initState).1.sounding = []) ∧
    (∀ evs : List Event, (1 : Chunk) ∉ deltaChunks evs →
      (1 : Chunk) ∉ startedChunks (runEvents evs (runEvents abcScenario initState).1).2) ∧
    (∀ evs : List Event, (2 : Chunk) ∉ deltaChunks evs →
      (2 : Chunk) ∉ startedChunks (runEvents evs (runEvents abcScenario initState).1).2) := by
  refine ⟨fun evs => ?_, ⟨by decide, by decide, by decide, by decide⟩,
    fun evs hd => ?_, fun evs hd => ?_⟩
  · have h := runEvents_order evs initState
    have h0 : initState.audioQueue = [] := rfl
    rw [h0, List.nil_append] at h
    exact List.Sublist.trans
      (List.sublist_append_left _ (runEvents evs initState).1.audioQueue) h
  · exact not_started_of_not_queued evs _ 1 (by decide) hd
  · exact not_started_of_not_queued evs _ 2 (by decide) hd

/-- Witness for the amended C6: in the concrete A,B,C scenario the
started chunks `[0]` are a sublist of the delivered `[0, 1, 2]`, and in
the continuation `[chunkEnded 0, responseCreated]` (no redelivery)
neither B = 1 nor C = 2 ever starts. -/
theorem playback_order_and_no_restart_witness :
    List.Sublist (startedChunks (runEvents abcScenario initState).2)
      (deltaChunks abcScenario) ∧
    (1 : Chunk) ∉ startedChunks
      (runEvents [Event.chunkEnded 0, Event.responseCreated]
        (runEvents abcScenario initState).1).2 ∧
    (2 : Chunk) ∉ startedChunks
      (runEvents [Event.chunkEnded 0, Event.responseCreated]
        (runEvents abcScenario initState).1).2 := by
  have h := playback_order_and_no_restart
  exact ⟨h.1 abcScenario,
    h.2.2.1 [Event.chunkEnded 0, Event.responseCreated] (by decide),
    h.2.2.2 [Event.chunkEnded 0, Event.responseCreated] (by decide)⟩

/-- The state right after an executed interrupt: `UserTurn`, assistant
silent, queue empty, last interrupt at t = 1000 ms. -/
def postInterruptState : SysState := { initState with lastInterruptTime := 1000 }

/-- Counterexample to C7 as stated: a chunk delivered while the state is
`UserTurn` (e.g. trailing audio arriving right after an interrupt) is not
discarded — the `response.audio.delta` handler first forces the
assistant-speaking flag back to `true` and then enqueues the chunk, which
here immediately starts playing. -/
theorem trailing_delta_counterexample :
    postInterruptState.turnState = TurnState.UserTurn ∧
    (onAudioDeltaMessage (.good 7) postInterruptState).2 = [Action.started 7] ∧
    (onAudioDeltaMessage (.good 7) postInterruptState).1.isAssistantSpeaking = true ∧
    (onAudioDeltaMessage (.good 7) postInterruptState).1.currentSource = some 7 := by
  exact ⟨by decide, by decide, by decide, by decide⟩

/-- C7 amended: on receipt of a decodable audio delta the handler
unconditionally sets the assistant-speaking flag (so the state is
`AssistantTurn` at the moment of enqueue) and the chunk is never
discarded: it either sits in the queue afterwards or starts playing at
once — also for deltas delivered while the state was not `AssistantTurn`. -/
theorem delta_always_enqueued (s : SysState) (c : Chunk) :
    (onAudioDeltaMessage (.good c) s).1.isAssistantSpeaking = true ∧
    (c ∈ (onAudioDeltaMessage (.good c) s).1.audioQueue ∨
      (onAudioDeltaMessage (.good c) s).2 = [Action.started c]) := by
  unfold onAudioDeltaMessage playAudioDelta
  dsimp only
  split
  · exact ⟨rfl, Or.inl (by simp)⟩
  · cases hq : s.audioQueue with
    | nil =>
        refine ⟨?_, Or.inr ?_⟩ <;> simp [playAudioQueueStep, hq]
    | cons d rest =>
        refine ⟨?_, Or.inl ?_⟩ <;> simp [playAudioQueueStep, hq]

/-- A mid-playback `AssistantTurn` state: chunk 0 sounding, chunks 1, 2
queued, one voiced frame counted. -/
def faultState : SysState :=
  { initState with audioQueue := [1, 2], isPlaying := true,
                   isAssistantSpeaking := true, currentSource := some 0,
                   speechFrames := 1 }

/-- Counterexample to C8 as stated: when the socket closes mid-playback,
`ws.onclose` clears only the `connected` / `isListening` UI flags — the
playback queue keeps its pending chunks, the current source keeps
sounding, and the detector state (voiced-frame counter,
assistant-speaking flag) is not reset. -/
theorem transport_fault_counterexample :
    (onClose faultState).1.audioQueue = [1, 2] ∧
    (onClose faultState).1.isPlaying = true ∧
    (onClose faultState).1.currentSource = some 0 ∧
    (onClose faultState).1.isAssistantSpeaking = true ∧
    (onClose faultState).1.speechFrames = 1 := by
  exact ⟨by decide, by decide, by decide, by decide, by decide⟩

/-- C8 amended: on a transport fault the handlers only update UI state:
`ws.onclose` clears the connected / listening flags (which makes the
derived turn state `Idle`), `ws.onerror` records an error message; the
playback queue is not stopped (current source and pending chunks are
untouched) and the detector state (voiced-frame counter,
assistant-speaking flag) is not reset — full teardown happens only in
the user-initiated disconnect path of `onConnect`. -/
theorem transport_fault_handlers (s : SysState) :
    onClose s =
      ({ s with wsOpen := false, connected := false, isListening := false }, []) ∧
    (onClose s).1.turnState = TurnState.Idle ∧
    (onClose s).1.audioQueue = s.audioQueue ∧
    (onClose s).1.isPlaying = s.isPlaying ∧
    (onClose s).1.currentSource = s.currentSource ∧
    (onClose s).1.isAssistantSpeaking = s.isAssistantSpeaking ∧
    (onClose s).1.speechFrames = s.speechFrames ∧
    onError s = ({ s with hasError := true }, []) := by
  refine ⟨rfl, ?_, rfl, rfl, rfl, rfl, rfl, rfl⟩
  simp [SysState.turnState, onClose]

/-- C9: a malformed chunk is dropped with a logged warning and changes
nothing else (`playAudioDelta` catches the decode failure; the message
handler around it has additionally set the assistant-speaking flag), and
the consume loop is unaffected: when the current chunk ends, the next
queued chunk starts as usual — a single bad chunk neither aborts the
queue nor leaves the playing flag set. -/
theorem malformed_chunk_dropped (s : SysState) (d c : Chunk) (rest : List Chunk) :
    playAudioDelta .malformed s = (s, [Action.logDecodeError]) ∧
    onAudioDeltaMessage .malformed s =
      ({ s with isAssistantSpeaking := true }, [Action.logDecodeError]) ∧
    (s.currentSource = some d → s.audioQueue = c :: rest →
      onChunkEnded d s =
        ({ s with currentSource := some c, audioQueue := rest, isPlaying := true,
                  sounding := s.sounding.erase d ++ [c] },
         [Action.started c])) := by
  refine ⟨rfl, rfl, fun hcur hq => ?_⟩
  unfold onChunkEnded
  dsimp only
  rw [if_pos hcur]
  simp [playAudioQueueStep, hq]

/-- The playback state used in the C9 witness: chunk 5 sounding, chunks
6 and 7 queued. -/
def playingState : SysState :=
  { initState with isAssistantSpeaking := true, isPlaying := true,
                   currentSource := some 5, sounding := [5],
                   audioQueue := [6, 7] }

/-- Witness for C9: dropping a malformed chunk leaves the playing state
unchanged (plus the log), and the consume loop then continues from chunk
5 to the queued chunk 6. -/
theorem malformed_chunk_dropped_witness :
    playAudioDelta .malformed playingState =
      (playingState, [Action.logDecodeError]) ∧
    onChunkEnded 5 playingState =
      ({ playingState with currentSource := some 6, audioQueue := [7],
                           isPlaying := true, sounding := [6] },
       [Action.started 6]) := by
  have h := malformed_chunk_dropped playingState 5 6 [7]
  exact ⟨h.1, h.2.2 rfl rfl⟩

/-! ## PCM16 sample codec (`convertToPCM16` and the decode in
`playAudioQueue`), over exact rationals -/

/-- Clamp `Math.max(-1, Math.min(1, x))` applied in `convertToPCM16`. -/
def clampSample (x : ℚ) : ℚ := max (-1) (min 1 x)

/-- The integer conversion performed by `DataView.setInt16` on its number
argument: truncation toward zero. -/
def truncToInt (q : ℚ) : ℤ := if q < 0 then ⌈q⌉ else ⌊q⌋

/-- One sample of `convertToPCM16` (page.tsx lines 367-376): clamp to
[-1, 1], scale by 0x8000 for negative values and 0x7fff otherwise, and
store as a 16-bit integer. -/
def convertToPCM16Sample (x : ℚ) : ℤ :=
  truncToInt
    (if clampSample x < 0 then clampSample x * 0x8000 else clampSample x * 0x7fff)

/-- One sample of the Int16 → Float32 decode in `playAudioQueue`
(page.tsx lines 411-415): `pcm16[i] / (pcm16[i] < 0 ? 0x8000 : 0x7fff)`. -/
def decodePCM16Sample (v : ℤ) : ℚ :=
  if v < 0 then (v : ℚ) / 0x8000 else (v : ℚ) / 0x7fff

theorem clampSample_lb (x : ℚ) : (-1 : ℚ) ≤ clampSample x := le_max_left _ _

theorem clampSample_ub (x : ℚ) : clampSample x ≤ 1 :=
  max_le (by norm_num) (min_le_left _ _)

theorem clampSample_of_mem (x : ℚ) (hlo : (-1 : ℚ) ≤ x) (hhi : x ≤ 1) :
    clampSample x = x := by
  unfold clampSample
  rw [min_eq_right hhi, max_eq_right hlo]

/-- C10: the PCM16 sample codec round-trips exactly — decoding any
in-range signed 16-bit sample (as `playAudioQueue` does before playback)
and re-encoding it with `convertToPCM16`'s mapping yields the sample
back — and the encoder is total: every input, being clamped to [-1, 1]
first, lands in the signed 16-bit range. -/
theorem pcm16_roundtrip_total (v : ℤ) (x : ℚ)
    (h1 : -32768 ≤ v) (h2 : v ≤ 32767) :
    convertToPCM16Sample (decodePCM16Sample v) = v ∧
    -32768 ≤ convertToPCM16Sample x ∧ convertToPCM16Sample x ≤ 32767 := by
  constructor
  · rcases lt_or_ge v 0 with hv | hv
    · have hvq : ((v : ℚ)) < 0 := by exact_mod_cast hv
      have hq : decodePCM16Sample v = (v : ℚ) / 32768 := by
        unfold decodePCM16Sample
        rw [if_pos hv]
      have hlo : (-1 : ℚ) ≤ (v : ℚ) / 32768 := by
        rw [le_div_iff₀ (by norm_num : (0:ℚ) < 32768)]
        have hcast : ((-32768 : ℤ) : ℚ) ≤ (v : ℚ) := by exact_mod_cast h1
        push_cast at hcast
        linarith
      have hneg : (v : ℚ) / 32768 < 0 :=
        div_neg_of_neg_of_pos hvq (by norm_num)
      have hclamp : clampSample ((v : ℚ) / 32768) = (v : ℚ) / 32768 :=
        clampSample_of_mem _ hlo (le_of_lt (lt_of_lt_of_le hneg (by norm_num)))
      rw [hq]
      unfold convertToPCM16Sample
      rw [hclamp, if_pos hneg,
        show ((0x8000 : ℚ)) = 32768 by norm_num,
        div_mul_cancel₀ _ (by norm_num : (32768:ℚ) ≠ 0)]
      unfold truncToInt
      rw [if_pos hvq, Int.ceil_intCast]
    · have hvq : (0 : ℚ) ≤ (v : ℚ) := by exact_mod_cast hv
      have hnlt : ¬ ((v : ℚ) < 0) := not_lt.mpr hvq
      have hq : decodePCM16Sample v = (v : ℚ) / 32767 := by
        unfold decodePCM16Sample
        rw [if_neg (not_lt.mpr hv)]
      have hnn : (0 : ℚ) ≤ (v : ℚ) / 32767 := div_nonneg hvq (by norm_num)
      have hhi : (v : ℚ) / 32767 ≤ 1 := by
        rw [div_le_one (by norm_num : (0:ℚ) < 32767)]
        exact_mod_cast h2
      have hclamp : clampSample ((v : ℚ) / 32767) = (v : ℚ) / 32767 :=
        clampSample_of_mem _ (le_trans (by norm_num) hnn) hhi
      rw [hq]
      unfold convertToPCM16Sample
      rw [hclamp, if_neg (not_lt.mpr hnn),
        show ((0x7fff : ℚ)) = 32767 by norm_num,
        div_mul_cancel₀ _ (by norm_num : (32767:ℚ) ≠ 0)]
      unfold truncToInt
      rw [if_neg hnlt, Int.floor_intCast]
  · have hc1 : (-1 : ℚ) ≤ clampSample x := clampSample_lb x
    have hc2 : clampSample x ≤ 1 := clampSample_ub x
    unfold convertToPCM16Sample truncToInt
    split
    · rename_i hneg
      have hylo : (-32768 : ℚ) ≤ clampSample x * 0x8000 := by nlinarith
      have hyhi : clampSample x * 0x8000 ≤ 0 := by nlinarith
      split
      · constructor
        · have hcl : (-32768 : ℤ) = ⌈((-32768 : ℤ) : ℚ)⌉ := (Int.ceil_intCast _).symm
          have hmono : ⌈((-32768 : ℤ) : ℚ)⌉ ≤ ⌈clampSample x * 0x8000⌉ :=
            Int.ceil_le_ceil (by push_cast; linarith)
          omega
        · have hle : ⌈clampSample x * 0x8000⌉ ≤ (0 : ℤ) :=
            Int.ceil_le.mpr (by push_cast; linarith)
          omega
      · rename_i hge
        constructor
        · have h0 : (0 : ℤ) ≤ ⌊clampSample x * 0x8000⌋ :=
            Int.floor_nonneg.mpr (not_lt.mp hge)
          omega
        · have hfl : ⌊clampSample x * 0x8000⌋ ≤ ⌊(0 : ℚ)⌋ :=
            Int.floor_le_floor hyhi
          simp at hfl
          omega
    · rename_i hge
      have hnn : (0 : ℚ) ≤ clampSample x := not_lt.mp hge
      have hylo : (0 : ℚ) ≤ clampSample x * 0x7fff := by nlinarith
      have hyhi : clampSample x * 0x7fff ≤ 32767 := by nlinarith
      split
      · rename_i hlt
        exact absurd hylo (not_le.mpr hlt)
      · constructor
        · have h0 : (0 : ℤ) ≤ ⌊clampSample x * 0x7fff⌋ := Int.floor_nonneg.mpr hylo
          omega
        · have hfl : ⌊clampSample x * 0x7fff⌋ ≤ ⌊(32767 : ℚ)⌋ :=
            Int.floor_le_floor hyhi
          have h32 : ⌊(32767 : ℚ)⌋ = 32767 := by
            rw [show ((32767 : ℚ)) = ((32767 : ℤ) : ℚ) by norm_num, Int.floor_intCast]
          omega

/-- Witness for C10 at v = -5 and x = 7/5 (an out-of-range float input
that the clamp makes safe). -/
theorem pcm16_roundtrip_total_witness :
    convertToPCM16Sample (decodePCM16Sample (-5)) = -5 ∧
    -32768 ≤ convertToPCM16Sample (7 / 5) ∧
    convertToPCM16Sample (7 / 5) ≤ 32767 :=
  pcm16_roundtrip_total (-5) (7 / 5) (by decide) (by decide)

end Voice
